import Mathlib

/-!
Verification of the nl3d-2017 NumberLink solver against its
natural-language specification.

The Python sources under `nl3d/` are shallowly embedded: pure functions
become Lean functions, the mutating construction loops become explicit
folds over the same iteration ranges, machine integers are `Nat`/`Int`,
and code that can raise a Python exception returns `Except PyError`.
-/

/-- Python exceptions that the embedded fragments can raise. -/
inductive PyError where
  | nameError
  | attributeError
  | typeError
  | indexError
  | assertionError
  deriving DecidableEq, Repr

/-- Python `range(a, b)` (step 1) as a list of naturals. -/
def pyRange (a b : Nat) : List Nat :=
  List.range' a (b - a)

/-- `Point` — modelled from the spec: `nl3d/point.py` is absent from the
sources; the spec defines a Point as an immutable `(x, y, z)` triple. -/
structure Point where
  x : Nat
  y : Nat
  z : Nat
  deriving DecidableEq, Repr

/-- `Dimension` from `nl3d/dimension.py`: width, height, depth. -/
structure Dimension where
  width : Nat
  height : Nat
  depth : Nat
  deriving DecidableEq, Repr

/-- `Dimension.grid_size` from `nl3d/dimension.py`. -/
def Dimension.grid_size (d : Dimension) : Nat :=
  d.width * d.height * d.depth

/-- `Dimension.xyz_to_index` from `nl3d/dimension.py`:
`((z * height) + y) * width + x`. -/
def Dimension.xyz_to_index (d : Dimension) (x y z : Nat) : Nat :=
  ((z * d.height) + y) * d.width + x

/-- `Dimension.index_to_xyz` from `nl3d/dimension.py`. -/
def Dimension.index_to_xyz (d : Dimension) (index : Nat) : Nat × Nat × Nat :=
  (index % d.width, (index / d.width) % d.height, (index / d.width) / d.height)

/-- `Dimension.index_to_point` from `nl3d/dimension.py`. -/
def Dimension.index_to_point (d : Dimension) (index : Nat) : Point :=
  let t := d.index_to_xyz index
  ⟨t.1, t.2.1, t.2.2⟩

/-- `Dimension.point_to_index` from `nl3d/dimension.py`. -/
def Dimension.point_to_index (d : Dimension) (p : Point) : Nat :=
  d.xyz_to_index p.x p.y p.z

/-- `Via` from `nl3d/via.py`: label, x, y and the layer range `z1 ≤ z2`. -/
structure Via where
  label : String
  x : Nat
  y : Nat
  z1 : Nat
  z2 : Nat
  deriving DecidableEq, Repr

/-- `Problem` from `nl3d/problem.py`.  A net is `(label, start, end)`;
`net_list` and `via_list` keep insertion order, `via_dict` is the
label-keyed dictionary kept alongside `via_list` (association list,
insertion order). -/
structure Problem where
  dim : Dimension
  net_list : List (Nat × Point × Point)
  via_list : List Via
  via_dict : List (String × Via)
  deriving Repr

/-- `Problem.depth` property from `nl3d/problem.py`. -/
def Problem.depth (p : Problem) : Nat := p.dim.depth

/-- `Problem.net_num` property from `nl3d/problem.py`. -/
def Problem.net_num (p : Problem) : Nat := p.net_list.length

/-- `Problem.via_num` property from `nl3d/problem.py`. -/
def Problem.via_num (p : Problem) : Nat := p.via_list.length

/-- `Problem.has_via` from `nl3d/problem.py`: `label in self.__via_dict`. -/
def Problem.has_via (p : Problem) (label : String) : Bool :=
  p.via_dict.any (fun kv => kv.1 == label)

/-- `Problem.via` from `nl3d/problem.py`.  The source reads

    if label in self.__via_dict :
        return __via_dict[label]
    else :
        return None

The bare name `__via_dict` in the `return` is mangled by Python to the
global name `_Problem__via_dict`, which is not defined anywhere, so the
then-branch raises `NameError`; the else-branch returns `None`. -/
def Problem.via (p : Problem) (label : String) : Except PyError (Option Via) :=
  if p.via_dict.any (fun kv => kv.1 == label) then
    Except.error PyError.nameError
  else
    Except.ok none

/-- `guess_format` from `nl3d/graph.py`. -/
def guess_format (problem : Problem) : String :=
  if problem.depth = 1 then "adc2015"
  else if problem.via_num > 0 then "adc2016"
  else "adc2017"

/-- The format-selection prologue of `Graph.set_problem` in
`nl3d/graph.py`: the optional caller override is asserted to be one of
the three format names; it is replaced by the auto-detected format
(with a printed warning, recorded as the `Bool`) exactly when
`depth > 1` and the override is `adc2015`, or `via_num > 0` and the
override is `adc2017`. -/
def Graph.chooseFormat (problem : Problem) (format : Option String) :
    Except PyError (String × Bool) :=
  match format with
  | none => Except.ok (guess_format problem, false)
  | some f =>
    if f = "adc2015" ∨ f = "adc2016" ∨ f = "adc2017" then
      if (problem.dim.depth > 1 ∧ f = "adc2015") ∨
         (problem.via_num > 0 ∧ f = "adc2017") then
        Except.ok (guess_format problem, true)
      else
        Except.ok (f, false)
    else
      Except.error PyError.assertionError

/-- The z-iteration range of the via-marking loop of `Graph.set_problem`
(`nl3d/graph.py`, identically `nl3d/v2016/graph.py`):
`for z in range(via.z1, via.z2 - via.z1 + 1)`. -/
def viaMarkedLayers (via : Via) : List Nat :=
  pyRange via.z1 (via.z2 - via.z1 + 1)

/-- The sequence of `node.set_via(via_id)` calls performed by
`Graph.set_problem` for an `adc2016` problem, in execution order:
each element is `((x, y, z), via_id)`. -/
def markVias (vias : List Via) : List ((Nat × Nat × Nat) × Nat) :=
  (List.range vias.length).flatMap fun via_id =>
    match vias.get? via_id with
    | some via => (viaMarkedLayers via).map fun z => ((via.x, via.y, z), via_id)
    | none => []

/-- `Node.is_via` of the cell `(x, y, z)` after `Graph.set_problem`:
true iff some `set_via` call touched the cell. -/
def Graph.node_is_via (p : Problem) (x y z : Nat) : Bool :=
  (markVias p.via_list).any fun m => m.1 = (x, y, z)

/-- `Node.via_id` of the cell `(x, y, z)` after `Graph.set_problem`:
the argument of the last `set_via` call on the cell, if any. -/
def Graph.node_via_id (p : Problem) (x y z : Nat) : Option Nat :=
  (((markVias p.via_list).filter fun m => m.1 = (x, y, z)).map Prod.snd).getLast?

/-- One call of `Graph.__new_edge(node1, node2, dir_base)` from
`nl3d/graph.py`, with nodes as linear indices. -/
structure EdgeStep where
  n1 : Nat
  n2 : Nat
  dirBase : Nat
  deriving DecidableEq, Repr

/-- The `__new_edge` calls performed by `Graph.set_problem`
(`nl3d/graph.py`), in execution order: per layer first the x-edges
(`x` outer, `y` inner), then the y-edges; for `adc2017` additionally
the z-edges.  The edge id is the position in this list. -/
def Graph.edgeSteps (dim : Dimension) (format : String) : List EdgeStep :=
  ((List.range dim.depth).flatMap fun z =>
    ((List.range (dim.width - 1)).flatMap fun x =>
      (List.range dim.height).map fun y =>
        ⟨dim.xyz_to_index x y z, dim.xyz_to_index (x+1) y z, 0⟩)
    ++ ((List.range dim.width).flatMap fun x =>
      (List.range (dim.height - 1)).map fun y =>
        ⟨dim.xyz_to_index x y z, dim.xyz_to_index x (y+1) z, 1⟩))
  ++ (if format = "adc2017" then
      (List.range dim.width).flatMap fun x =>
        (List.range dim.height).flatMap fun y =>
          (List.range (dim.depth - 1)).map fun z =>
            ⟨dim.xyz_to_index x y z, dim.xyz_to_index x y (z+1), 2⟩
      else [])

/-- The directional-slot state of all nodes: `slots n d` is the edge id
held in slot `d` (0: x1, 1: x2, 2: y1, 3: y2, 4: z1, 5: z2) of the node
with index `n`. -/
def SlotMap : Type := Nat → Nat → Option Nat

/-- `__new_edge` registers edge `eid` in `node1`'s slot
`dir_base*2 + 1` and `node2`'s slot `dir_base*2 + 0`
(via `Node.add_edge`). -/
def writeSlots (m : SlotMap) (s : EdgeStep) (eid : Nat) : SlotMap :=
  fun n d =>
    if n = s.n2 ∧ d = 2 * s.dirBase then some eid
    else if n = s.n1 ∧ d = 2 * s.dirBase + 1 then some eid
    else m n d

/-- Fold of `__new_edge` over the construction sequence; `i` is the id
of the next edge (`len(self.__edge_list)`). -/
def addEdges (m : SlotMap) (i : Nat) : List EdgeStep → SlotMap
  | [] => m
  | s :: rest => addEdges (writeSlots m s i) (i + 1) rest

/-- The slot state after `Graph.set_problem` built all edges. -/
def Graph.slots (dim : Dimension) (format : String) : SlotMap :=
  addEdges (fun _ _ => none) 0 (Graph.edgeSteps dim format)

/-- `writesTo s n d`: the `__new_edge` call `s` stores its edge into
slot `d` of node `n`. -/
def writesTo (s : EdgeStep) (n d : Nat) : Prop :=
  (n = s.n2 ∧ d = 2 * s.dirBase) ∨ (n = s.n1 ∧ d = 2 * s.dirBase + 1)

instance (s : EdgeStep) (n d : Nat) : Decidable (writesTo s n d) := by
  unfold writesTo; infer_instance

/-! ## Router (`nl3d/v2017/router.py`)

`nl3d/v2017/point.py` and `nl3d/v2017/dimension.py` are absent from the
sources; `Point` and `Dimension` above are used for them (modelled from
the spec, whose §3 fixes the same linearization).  Python name mangling
makes every `cell.__label` access inside class `Router` refer to a
`_Router__label` attribute (distinct from `Cell.__label`), consistently
across the class; it is embedded as the label state below.  Errors of
the embedding: `RunErr.py` mirrors a Python exception, `RunErr.fuelOut`
only signals that the caller supplied too little fuel for the loops. -/

inductive RunErr where
  | py (e : PyError)
  | fuelOut
  deriving DecidableEq, Repr

/-- `check_bend` from `nl3d/v2017/router.py`. -/
def check_bend (point1 point2 point3 : Point) : Bool :=
  let x_diff := point1.x ≠ point2.x ∨ point2.x ≠ point3.x
  let y_diff := point1.y ≠ point2.y ∨ point2.y ≠ point3.y
  let z_diff := point1.z ≠ point2.z ∨ point2.z ≠ point3.z
  (x_diff ∧ y_diff) ∨ (x_diff ∧ z_diff) ∨ (y_diff ∧ z_diff)

/-- `RouteInfo` from `nl3d/v2017/router.py` (start, end, interior
points). -/
structure RouteInfo where
  start_point : Point
  end_point : Point
  points : List Point
  deriving DecidableEq, Repr

/-- `RouteInfo.__init__`: requires `len(routes) >= 2` (assert), keeps
`routes[0]`, `routes[nr-1]` and the interior `routes[1..nr-2]`. -/
def RouteInfo.ofRoute (routes : List Point) : Except RunErr RouteInfo :=
  match routes with
  | p0 :: rest =>
    if rest.length = 0 then Except.error (RunErr.py PyError.assertionError)
    else Except.ok ⟨p0, (p0 :: rest).getLast (by simp),
      ((p0 :: rest).drop 1).take ((p0 :: rest).length - 2)⟩
  | [] => Except.error (RunErr.py PyError.assertionError)

/-- The inner loop of `RouteInfo.count_bends`: slide a window
`(prev2, prev1, ·)` over the remaining interior points and finally the
end point. -/
def countBendsAux (prev2 prev1 : Point) : List Point → Point → Nat
  | [], endP => if check_bend prev2 prev1 endP then 1 else 0
  | p :: rest, endP =>
    (if check_bend prev2 prev1 p then 1 else 0) + countBendsAux prev1 p rest endP

/-- `RouteInfo.count_bends` from `nl3d/v2017/router.py`. -/
def RouteInfo.count_bends (ri : RouteInfo) : Nat :=
  match ri.points with
  | [] => 0
  | p0 :: rest => countBendsAux ri.start_point p0 rest ri.end_point

/-- `Router.count` from `nl3d/v2017/router.py`: total interior length
and total bend count over all nets. -/
def Router.count (ris : List RouteInfo) : Nat × Nat :=
  (ris.foldl (fun a ri => a + ri.points.length) 0,
   ris.foldl (fun a ri => a + ri.count_bends) 0)

/-- The adjacency set up by `Router.__init__`: `adj_cell dim c dir` is
the index of the neighbour of cell `c` in direction `dir`
(0: x−, 1: x+, 2: y−, 3: y+, 4: z−, 5: z+), when inside the grid. -/
def Router.adj_cell (dim : Dimension) (index dir_id : Nat) : Option Nat :=
  let p := dim.index_to_point index
  if dir_id = 0 then
    if p.x > 0 then some (dim.point_to_index ⟨p.x - 1, p.y, p.z⟩) else none
  else if dir_id = 1 then
    if p.x < dim.width - 1 then some (dim.point_to_index ⟨p.x + 1, p.y, p.z⟩) else none
  else if dir_id = 2 then
    if p.y > 0 then some (dim.point_to_index ⟨p.x, p.y - 1, p.z⟩) else none
  else if dir_id = 3 then
    if p.y < dim.height - 1 then some (dim.point_to_index ⟨p.x, p.y + 1, p.z⟩) else none
  else if dir_id = 4 then
    if p.z > 0 then some (dim.point_to_index ⟨p.x, p.y, p.z - 1⟩) else none
  else if dir_id = 5 then
    if p.z < dim.depth - 1 then some (dim.point_to_index ⟨p.x, p.y, p.z + 1⟩) else none
  else none

/-- The work `Edge` of `nl3d/v2017/router.py` (backtrace chain links). -/
inductive BEdge where
  | mk (fromC toC : Nat) (bendNum : Int) (next : Option BEdge)

/-- `_to` of a work `Edge`. -/
def BEdge.toC : BEdge → Nat
  | .mk _ t _ _ => t

/-- `_bend_num` of a work `Edge`. -/
def BEdge.bendNum : BEdge → Int
  | .mk _ _ b _ => b

/-- `_next` of a work `Edge`. -/
def BEdge.next : BEdge → Option BEdge
  | .mk _ _ _ n => n

/-- Backtrace state: `backtrace_info` of every cell, six slots per
cell. -/
def BtMap : Type := List (List (Option BEdge))

/-- Read `cell.backtrace_info(d)` of cell `c`. -/
def btGet (bt : BtMap) (c d : Nat) : Option BEdge :=
  (bt.getD c []).getD d none

/-- `cell.set_backtrace_info(d, edge)` on cell `c`. -/
def btSet (bt : BtMap) (c d : Nat) (e : BEdge) : BtMap :=
  bt.set c ((bt.getD c []).set d (some e))

/-- Python list read `l[i]` for the label array (all uses in the router
are in range; out of range yields the stated default). -/
def listGetI (l : List Int) (i : Nat) : Int := l.getD i 0

/-- The labelling BFS of `Router.__reroute_sub` (first `while True`
loop): pop cells until `end` is popped, labelling unlabelled
neighbours with `label + 1`.  `pending` is `queue[rpos:]`. -/
def bfsLabel (dim : Dimension) (endIdx : Nat) :
    Nat → List Int → List Nat → Except RunErr (List Int)
  | 0, _, _ => Except.error RunErr.fuelOut
  | _ + 1, _, [] => Except.error (RunErr.py PyError.assertionError)
  | fuel + 1, labels, c :: rest =>
    if c = endIdx then Except.ok labels
    else
      let st := [0, 1, 2, 3, 4, 5].foldl
        (fun (st : List Int × List Nat) dir =>
          match Router.adj_cell dim c dir with
          | none => st
          | some n =>
            if listGetI st.1 n = 0 then
              (st.1.set n (listGetI st.1 c + 1), st.2 ++ [n])
            else st)
        (labels, rest)
      bfsLabel dim endIdx fuel st.1 st.2

/-- The per-neighbour body of the backtrace loop of
`Router.__reroute_sub`: compute `(min_b, min_edge)` over the edges
stored at `cell` (or `(0, None)` when `cell` is `end`), link a new work
edge from `cell1` and store it.  Because the inner minimising loop
reuses the Python variable `dir_id`, after it runs the store always
goes to slot `5 ^ 1 = 4`; only for `cell = end` (no inner loop) the
outer direction is used. -/
def btProcessNeighbor (dim : Dimension) (endIdx c c1 dir : Nat) (bt : BtMap) : BtMap :=
  let mb :=
    if c = endIdx then ((0 : Int), (none : Option BEdge))
    else
      [0, 1, 2, 3, 4, 5].foldl
        (fun (mb : Int × Option BEdge) dir2 =>
          match btGet bt c dir2 with
          | none => mb
          | some edge =>
            let b := edge.bendNum +
              (if check_bend (dim.index_to_point c1) (dim.index_to_point c)
                  (dim.index_to_point edge.toC) then 1 else 0)
            if mb.1 = -1 ∨ mb.1 > b then (b, some edge) else mb)
        (-1, none)
  let slot := if c = endIdx then dir ^^^ 1 else 5 ^^^ 1
  btSet bt c1 slot (BEdge.mk c1 c mb.1 mb.2)

/-- The backtrace BFS of `Router.__reroute_sub` (second `while True`
loop): pop cells from `end` until `start` is popped; for each popped
cell process its label−1 neighbours. -/
def btLoop (dim : Dimension) (startIdx endIdx : Nat) (labels : List Int) :
    Nat → BtMap → List Bool → List Nat → Except RunErr BtMap
  | 0, _, _, _ => Except.error RunErr.fuelOut
  | _ + 1, _, _, [] => Except.error (RunErr.py PyError.assertionError)
  | fuel + 1, bt, mark, c :: rest =>
    if c = startIdx then Except.ok bt
    else
      let label := listGetI labels c
      let st := [0, 1, 2, 3, 4, 5].foldl
        (fun (st : BtMap × List Bool × List Nat) dir =>
          match Router.adj_cell dim c dir with
          | none => st
          | some c1 =>
            if listGetI labels c1 ≠ label - 1 then st
            else
              let bt := btProcessNeighbor dim endIdx c c1 dir st.1
              if st.2.1.getD c1 false = false then
                (bt, st.2.1.set c1 true, st.2.2 ++ [c1])
              else (bt, st.2.1, st.2.2))
        (bt, mark, rest)
      btLoop dim startIdx endIdx labels fuel st.1 st.2.1 st.2.2

/-- The final chain walk of `Router.__reroute_sub`: follow `_next`
links collecting interior points until the target cell is `end`. -/
def chainPoints (dim : Dimension) (endIdx : Nat) :
    Nat → BEdge → Except RunErr (List Point)
  | 0, _ => Except.error RunErr.fuelOut
  | fuel + 1, e =>
    if e.toC = endIdx then Except.ok []
    else
      match e.next with
      | none => Except.error (RunErr.py PyError.attributeError)
      | some e2 => do
        let ps ← chainPoints dim endIdx fuel e2
        Except.ok (dim.index_to_point e.toC :: ps)

/-- `Router.__reroute_sub` from `nl3d/v2017/router.py`: label BFS from
`start`, backtrace BFS from `end`, then pick the minimum-bend edge
stored at `start` and walk its chain; returns the new interior
points. -/
def Router.reroute_sub (dim : Dimension) (fuel : Nat) (startIdx endIdx : Nat)
    (labels0 : List Int) : Except RunErr (List Point) := do
  let labels := labels0.set startIdx 1
  let labels ← bfsLabel dim endIdx fuel labels [startIdx]
  let mark := (List.replicate (dim.grid_size) false).set endIdx true
  let bt ← btLoop dim startIdx endIdx labels fuel
    (List.replicate dim.grid_size (List.replicate 6 none)) mark [endIdx]
  let mb := [0, 1, 2, 3, 4, 5].foldl
    (fun (mb : Int × Option BEdge) dir =>
      match btGet bt startIdx dir with
      | none => mb
      | some edge =>
        let b := edge.bendNum
        if mb.1 = -1 ∨ mb.1 > b then (b, some edge) else mb)
    (-1, none)
  match mb.2 with
  | none => Except.error (RunErr.py PyError.assertionError)
  | some e => chainPoints dim endIdx fuel e

/-- `Router.__reroute` from `nl3d/v2017/router.py`: clear labels, mark
every cell of every other net's current route as obstacle (−1), then
recompute the route of `net_id`. -/
def Router.reroute_one (dim : Dimension) (fuel : Nat) (ris : List RouteInfo)
    (net_id : Nat) : Except RunErr (List RouteInfo) := do
  let labels := List.replicate (dim.grid_size) (0 : Int)
  let labels := (List.range ris.length).foldl
    (fun labels i =>
      if i = net_id then labels
      else
        match ris.get? i with
        | none => labels
        | some ri =>
          let labels := labels.set (dim.point_to_index ri.start_point) (-1)
          let labels := labels.set (dim.point_to_index ri.end_point) (-1)
          ri.points.foldl (fun labels p => labels.set (dim.point_to_index p) (-1)) labels)
    labels
  match ris.get? net_id with
  | none => Except.error (RunErr.py PyError.indexError)
  | some ri => do
    let pts ← Router.reroute_sub dim fuel (dim.point_to_index ri.start_point)
      (dim.point_to_index ri.end_point) labels
    Except.ok (ris.set net_id { ri with points := pts })

/-- One full pass of `Router.reroute`: `for i in range(0, net_num):
self.__reroute(i)`. -/
def Router.reroutePass (dim : Dimension) (fuel : Nat) (ris : List RouteInfo) :
    Except RunErr (List RouteInfo) :=
  (List.range ris.length).foldlM (fun ris i => Router.reroute_one dim fuel ris i) ris

/-- The `while True` loop of `Router.reroute`, returning the totals
measured after each pass; the loop exits after the first pass at which
neither total decreased. -/
def Router.rerouteLoop (dim : Dimension) (fuel : Nat) :
    Nat → List RouteInfo → Nat × Nat → Except RunErr (List RouteInfo × List (Nat × Nat))
  | 0, _, _ => Except.error RunErr.fuelOut
  | iters + 1, ris, t0 =>
    match Router.reroutePass dim fuel ris with
    | Except.error e => Except.error e
    | Except.ok ris =>
      let t := Router.count ris
      if t0.1 ≤ t.1 ∧ t0.2 ≤ t.2 then Except.ok (ris, [t])
      else
        match Router.rerouteLoop dim fuel iters ris t with
        | Except.error e => Except.error e
        | Except.ok (risf, ts) => Except.ok (risf, t :: ts)

/-- `Router.reroute` on an initial route list (each route a point
list), returning the final routes and the totals trace: the totals
before the loop followed by the totals after each pass. -/
def Router.reroute (dim : Dimension) (fuel : Nat) (routes : List (List Point)) :
    Except RunErr (List RouteInfo × List (Nat × Nat)) :=
  match routes.mapM RouteInfo.ofRoute with
  | Except.error e => Except.error e
  | Except.ok ris =>
    let t := Router.count ris
    match Router.rerouteLoop dim fuel fuel ris t with
    | Except.error e => Except.error e
    | Except.ok (risf, ts) => Except.ok (risf, t :: ts)

/-- The totals trace of `Router.reroute`: total interior length and
total bend count before the loop and after each pass. -/
def Router.rerouteTrace (dim : Dimension) (fuel : Nat)
    (routes : List (List Point)) : Except RunErr (List (Nat × Nat)) :=
  (Router.reroute dim fuel routes).map Prod.snd

/-! ## Model decoder of `nl3d/v2016/cnfencoder.py` (`__find_route`)

The walk is generic over the duck-typed graph object: it only uses
`node.point`, `node.is_via`, `node.edge_list`, `edge.alt_node`,
`graph.node(x, y, z)` and the terminal pair, embedded as the record
below (nodes and edges as indices).  The SAT model is abstracted as the
set of selected edges. -/

/-- The node data `__find_route` reads. -/
structure VNode where
  point : Point
  is_via : Bool
  edge_list : List Nat
  deriving DecidableEq, Repr

/-- The edge data `__find_route` reads. -/
structure VEdge where
  node1 : Nat
  node2 : Nat
  deriving DecidableEq, Repr

/-- The graph interface `__find_route` uses. -/
structure VGraph where
  nodes : List VNode
  edges : List VEdge
  nodeAt : Nat → Nat → Nat → Nat

/-- Default node for out-of-range reads (never hit on the inputs the
decoder is run on). -/
def VNode.dflt : VNode := ⟨⟨0, 0, 0⟩, false, []⟩

/-- `Edge.alt_node(node)` from `nl3d/v2016/graph.py` (for a node on the
edge). -/
def VEdge.alt_node (e : VEdge) (node : Nat) : Nat :=
  if e.node1 = node then e.node2 else e.node1

/-- The edge-scanning loop at the head of each `__find_route`
iteration: the first selected, not-yet-used edge out of `node`
(skipping the one back to `prev`). -/
def findNext (g : VGraph) (selected : Nat → Bool) (node : Nat) (prev : Option Nat) :
    Option Nat :=
  ((g.nodes.getD node VNode.dflt).edge_list.filterMap fun eid =>
    if selected eid = false then none
    else
      match g.edges.getD eid ⟨0, 0⟩ with
      | e => if some (e.alt_node node) = prev then none else some (e.alt_node node)).head?

/-- Python `range(a, b, -1)`: `a, a−1, …, b+1`. -/
def pyRangeDown (a b : Nat) : List Nat :=
  (List.range' (b + 1) (a - b)).reverse

/-- The body of `CnfEncoder.__find_route` from `nl3d/v2016/cnfencoder.py`:
append the current node's point; stop at `end`; follow the next
selected edge; with no such edge, assert the node is a via cell and the
terminals lie on different layers, append the vertical run
`range(start.z, end.z)` (or `range(start.z, end.z, -1)`) of points at
the via's `(x, y)` and resume at `graph.node(x, y, end.z)`. -/
def find_routeAux (g : VGraph) (selected : Nat → Bool) (startIdx endIdx : Nat) :
    Nat → Option Nat → Nat → List Point → Except RunErr (List Point)
  | 0, _, _, _ => Except.error RunErr.fuelOut
  | fuel + 1, prev, node, route =>
    let np := (g.nodes.getD node VNode.dflt).point
    let route := route ++ [np]
    if node = endIdx then Except.ok route
    else
      match findNext g selected node prev with
      | some nxt => find_routeAux g selected startIdx endIdx fuel (some node) nxt route
      | none =>
        if (g.nodes.getD node VNode.dflt).is_via = false then
          Except.error (RunErr.py PyError.assertionError)
        else
          let sz := (g.nodes.getD startIdx VNode.dflt).point.z
          let ez := (g.nodes.getD endIdx VNode.dflt).point.z
          if sz = ez then Except.error (RunErr.py PyError.assertionError)
          else
            let run := (if sz < ez then pyRange sz ez else pyRangeDown sz ez).map
              fun z => (⟨np.x, np.y, z⟩ : Point)
            find_routeAux g selected startIdx endIdx fuel (some node)
              (g.nodeAt np.x np.y ez) (route ++ run)

/-- `CnfEncoder.__find_route` for one net: walk from `start` with empty
route and `prev = None`. -/
def find_route (g : VGraph) (selected : Nat → Bool) (startIdx endIdx fuel : Nat) :
    Except RunErr (List Point) :=
  find_routeAux g selected startIdx endIdx fuel none startIdx []

/-! ## `Solution` (`nl3d/solution.py`) and `ADC_Reader` (`nl3d/adc_reader.py`) -/

/-- `Solution` from `nl3d/solution.py`: a dimension and the linear grid
of cell values. -/
structure Solution where
  dim : Dimension
  grid : List Nat
  deriving DecidableEq, Repr

/-- Python `'{:3d}'.format(n)`: decimal, right-aligned to width 3 with
spaces. -/
def format3 (n : Nat) : String :=
  let s := toString n
  if s.length < 3 then String.mk (List.replicate (3 - s.length) ' ') ++ s else s

/-- One emitted row of `Solution.print`: the width-many cell values of
row `y` of layer `z`, comma-separated. -/
def Solution.rowLine (sol : Solution) (y z : Nat) : String :=
  String.intercalate "," ((List.range sol.dim.width).map fun x =>
    format3 (sol.grid.getD (sol.dim.xyz_to_index x y z) 0))

/-- `Solution.print` from `nl3d/solution.py`, as the list of emitted
lines: the SIZE header, then per layer a `LAYER k` line (1-based)
followed by the rows. -/
def Solution.printLines (sol : Solution) : List String :=
  ("SIZE " ++ toString sol.dim.width ++ "X" ++ toString sol.dim.height ++
    "X" ++ toString sol.dim.depth)
  :: (List.range sol.dim.depth).flatMap fun z =>
    ("LAYER " ++ toString (z + 1))
    :: (List.range sol.dim.height).map fun y => sol.rowLine y z

/-- Python whitespace (the characters `str.rstrip` strips). -/
def isPySpace (c : Char) : Bool :=
  c = ' ' ∨ c = '\t' ∨ c = '\n' ∨ c = '\x0d' ∨ c = '\x0b' ∨ c = '\x0c'

/-- Python `str.rstrip()`. -/
def rstrip (s : String) : String :=
  String.mk (s.data.reverse.dropWhile isPySpace).reverse

/-- The line loop of `ADC_Reader.read_solution` from
`nl3d/adc_reader.py`: blank lines (after `rstrip`) are skipped; the
first non-blank line reaches `if self.__read_SIZE() :`.  Class
`ADC_Reader` defines `__read_SIZE2D` and `__read_SIZE3D` but no
`__read_SIZE`, so the mangled attribute `_ADC_Reader__read_SIZE` does
not exist and the call raises `AttributeError`; on empty input the loop
ends with `nerr = 0` and the freshly constructed solution is
returned. -/
def ADC_Reader.read_solution : List String → Except PyError Unit
  | [] => Except.ok ()
  | l :: rest =>
    if rstrip l = "" then ADC_Reader.read_solution rest
    else Except.error PyError.attributeError

/-! ## `ADC_Reader.__read_VIA` (`nl3d/adc_reader.py`)

The two regular expressions (module constants of `adc_reader.py`)

    VIA3D_name = re.compile('^VIA#([a-z]+) +(\((\d+),(\d+),(\d+)\))+', re.IGNORECASE)
    VIA3D_pos  = re.compile('[- ]\((\d+),(\d+),(\d+)\)$', re.IGNORECASE)

are realized character-exactly: `matchViaName` is `VIA3D_name.match`
restricted to the label group (the pattern is unanchored at the right,
so it succeeds iff the line starts with `VIA#`, letters, spaces and at
least one `(d,d,d)` triple); `viaPosMatches` is the full match list of
`VIA3D_pos.finditer` — since that pattern is anchored by `$`, a match
must end at the end of the line, so the iterator yields at most one
match: the final triple, provided a `-` or a space precedes it. -/

/-- ASCII letter (the `[a-z]` class under `re.IGNORECASE`). -/
def isAsciiLetter (c : Char) : Bool :=
  ('a' ≤ c ∧ c ≤ 'z') ∨ ('A' ≤ c ∧ c ≤ 'Z')

/-- ASCII digit (the `\d` class on ASCII input). -/
def isDigitChar (c : Char) : Bool :=
  '0' ≤ c ∧ c ≤ '9'

/-- Uppercase an ASCII letter (case-insensitive keyword comparison). -/
def upperAscii (c : Char) : Char :=
  if 'a' ≤ c ∧ c ≤ 'z' then Char.ofNat (c.toNat - 32) else c

/-- Value of a digit string. -/
def digitsToNat (cs : List Char) : Nat :=
  cs.foldl (fun a c => a * 10 + (c.toNat - 48)) 0

/-- Parse one `\((\d+),(\d+),(\d+)\)` group at the head, returning the
triple and the rest. -/
def parseTriple (cs : List Char) : Option ((Nat × Nat × Nat) × List Char) :=
  match cs with
  | '(' :: r1 =>
    let d1 := r1.takeWhile isDigitChar
    let r2 := r1.dropWhile isDigitChar
    if d1 = [] then none
    else match r2 with
      | ',' :: r3 =>
        let d2 := r3.takeWhile isDigitChar
        let r4 := r3.dropWhile isDigitChar
        if d2 = [] then none
        else match r4 with
          | ',' :: r5 =>
            let d3 := r5.takeWhile isDigitChar
            let r6 := r5.dropWhile isDigitChar
            if d3 = [] then none
            else match r6 with
              | ')' :: r7 => some ((digitsToNat d1, digitsToNat d2, digitsToNat d3), r7)
              | _ => none
          | _ => none
      | _ => none
  | _ => none

/-- `VIA3D_name.match(line)`, as the captured label. -/
def matchViaName (s : String) : Option String :=
  let cs := s.data
  if (cs.take 4).map upperAscii = ['V', 'I', 'A', '#'] then
    let rest := cs.drop 4
    let label := rest.takeWhile isAsciiLetter
    let r1 := rest.dropWhile isAsciiLetter
    if label = [] then none
    else
      let sp := r1.takeWhile (fun c => c = ' ')
      let r2 := r1.dropWhile (fun c => c = ' ')
      if sp = [] then none
      else match parseTriple r2 with
        | some _ => some (String.mk label)
        | none => none
  else none

/-- The matches of `VIA3D_pos.finditer(line)` in order: at most the
final `(d,d,d)` triple of the line, when preceded by `-` or a space. -/
def viaPosMatches (s : String) : List (Nat × Nat × Nat) :=
  match s.data.reverse with
  | ')' :: r1 =>
    let d3 := r1.takeWhile isDigitChar
    let r2 := r1.dropWhile isDigitChar
    if d3 = [] then []
    else match r2 with
      | ',' :: r3 =>
        let d2 := r3.takeWhile isDigitChar
        let r4 := r3.dropWhile isDigitChar
        if d2 = [] then []
        else match r4 with
          | ',' :: r5 =>
            let d1 := r5.takeWhile isDigitChar
            let r6 := r5.dropWhile isDigitChar
            if d1 = [] then []
            else match r6 with
              | '(' :: sep :: _ =>
                if sep = '-' ∨ sep = ' ' then
                  [(digitsToNat d1.reverse, digitsToNat d2.reverse, digitsToNat d3.reverse)]
                else []
              | _ => []
          | _ => []
      | _ => []
  | _ => []

/-- The reader state the VIA handler touches. -/
structure ReaderState where
  has_SIZE : Bool
  dim : Dimension
  via_dict : List String
  vias : List Via
  nerr : Nat
  deriving DecidableEq, Repr

/-- `ADC_Reader.__check_range` as a predicate (the caller records the
error). -/
def ADC_Reader.check_range (dim : Dimension) (x y z : Int) : Bool :=
  0 ≤ x ∧ x < (dim.width : Int) ∧ 0 ≤ y ∧ y < (dim.height : Int) ∧
  0 ≤ z ∧ z < (dim.depth : Int)

/-- The `for m in VIA3D_pos.finditer(...)` loop of `__read_VIA`:
range-check each triple (layer numbers are 1-based in the file), check
`(x, y)` against the first triple, collect the 0-based layers.
`Sum.inl ()` is an early `return True` after recording one error. -/
def scanPositions (dim : Dimension) :
    List (Nat × Nat × Nat) → Option (Int × Int) → List Int →
    Sum Unit (Option (Int × Int) × List Int)
  | [], first, zs => Sum.inr (first, zs)
  | (xr, yr, zr) :: rest, first, zs =>
    let x : Int := xr
    let y : Int := yr
    let z : Int := (zr : Int) - 1
    if ADC_Reader.check_range dim x y z = false then Sum.inl ()
    else match first with
      | none => scanPositions dim rest (some (x, y)) (zs ++ [z])
      | some (x0, y0) =>
        if x ≠ x0 then Sum.inl ()
        else if y ≠ y0 then Sum.inl ()
        else scanPositions dim rest (some (x0, y0)) (zs ++ [z])

/-- Insert into a sorted list (ascending, stable). -/
def insSorted (x : Int) : List Int → List Int
  | [] => [x]
  | y :: ys => if x ≤ y then x :: y :: ys else y :: insSorted x ys

/-- Python `list.sort()` for ints: stable ascending sort. -/
def pySort : List Int → List Int
  | [] => []
  | x :: xs => insSorted x (pySort xs)

/-- `ADC_Reader.__read_VIA` from `nl3d/adc_reader.py`.  Returns the
Python return value (`False`: not a VIA line) and the updated state;
`z_list[0]` on an empty `z_list` raises `IndexError`. -/
def ADC_Reader.read_VIA (st : ReaderState) (line : String) :
    Except PyError (Bool × ReaderState) :=
  match matchViaName line with
  | none => Except.ok (false, st)
  | some label =>
    if st.has_SIZE = false then
      Except.ok (true, { st with nerr := st.nerr + 1 })
    else if st.via_dict.any (fun l => l = label) then
      Except.ok (true, { st with nerr := st.nerr + 1 })
    else
      let st := { st with via_dict := st.via_dict ++ [label] }
      match scanPositions st.dim (viaPosMatches line) none [] with
      | Sum.inl () => Except.ok (true, { st with nerr := st.nerr + 1 })
      | Sum.inr (first, zs) =>
        let zs := pySort zs
        match zs with
        | [] => Except.error PyError.indexError
        | z1 :: _ =>
          let z2 := zs.getLastD z1
          if (z2 - z1) ≠ (zs.length : Int) - 1 then
            Except.ok (true, { st with nerr := st.nerr + 1 })
          else match first with
            | none => Except.error PyError.nameError
            | some (x0, y0) =>
              if z1 ≤ z2 then
                Except.ok (true, { st with vias :=
                  st.vias ++ [⟨label, x0.toNat, y0.toNat, z1.toNat, z2.toNat⟩] })
              else Except.error PyError.assertionError

/-! ## Solver pipeline (`nl3d/v2017/solve_nlink.py`,
`CnfEncoder.solve` of `nl3d/v2017/cnfencoder.py`)

The SAT backend is opaque; each plan's solver outcome and variable
count are parameters.  On `Bool3.TRUE` the encoder decodes and reroutes
a solution (through `nl3d/router.py`, absent from the sources) and
returns `('OK', solution)`; the embedding keeps only whether a solution
is present. -/

/-- `Bool3` of the SAT backend (`nl3d/sat/satbool3.py`). -/
inductive Bool3 where
  | TRUE
  | FALSE
  | UNKNOWN
  deriving DecidableEq, Repr

/-- The five encoding plans of `nl3d/v2017/solve_nlink.py`. -/
inductive PlanId where
  | A
  | B11
  | B10
  | B01
  | C
  deriving DecidableEq, Repr

/-- `CnfEncoder.solve(var_limit)` from `nl3d/v2017/cnfencoder.py`, as a
function of the variable count and the backend outcome: `Abort` when a
positive variable limit is exceeded, else `OK`/`NG`/`Abort` for
`TRUE`/`FALSE`/`UNKNOWN`. -/
def CnfEncoder.solve (var_limit variable_num : Nat) (stat : Bool3) : String × Bool :=
  if var_limit > 0 ∧ variable_num > var_limit then ("Abort", false)
  else match stat with
    | Bool3.TRUE => ("OK", true)
    | Bool3.FALSE => ("NG", false)
    | Bool3.UNKNOWN => ("Abort", false)

/-- `solve_nlink` from `nl3d/v2017/solve_nlink.py`.  For `depth == 1`
the cascade is `plan_A`, `plan_B11`, `plan_B10`, `plan_B01`, `plan_C`;
otherwise only `plan_C` runs.  Each plan's result is checked only
against `'OK'`.  The source defines `plan_B11`, `plan_B10` and
`plan_B01` with two parameters `(graph, var_limit)` but calls them with
three arguments `(graph, var_limit, binary_encoding)`, so the first
such call raises `TypeError`. -/
def solve_nlink (depth var_limit : Nat) (planVars : PlanId → Nat)
    (planStat : PlanId → Bool3) : Except PyError (String × Bool) :=
  if depth = 1 then
    let r := CnfEncoder.solve var_limit (planVars PlanId.A) (planStat PlanId.A)
    if r.1 = "OK" then Except.ok r
    else Except.error PyError.typeError
  else
    let r := CnfEncoder.solve var_limit (planVars PlanId.C) (planStat PlanId.C)
    if r.1 = "OK" then Except.ok r else Except.ok (r.1, false)

/-- Shape of a totals trace of `Router.rerouteLoop`: every pass except
the last strictly decreases the total length or the total bend count,
and at the last pass neither total decreases (the loop guard). -/
inductive StrictThenStable : (Nat × Nat) → List (Nat × Nat) → Prop where
  | last (t0 t : Nat × Nat) : t0.1 ≤ t.1 → t0.2 ≤ t.2 → StrictThenStable t0 [t]
  | step (t0 t : Nat × Nat) (rest : List (Nat × Nat)) :
      (t.1 < t0.1 ∨ t.2 < t0.2) → StrictThenStable t rest →
      StrictThenStable t0 (t :: rest)

/-- The 4×3 instance refuting bend monotonicity: net 0 runs from
`(0, 0)` to `(2, 2)` along the left-then-top L (one bend), net 1 is the
unit segment `(2, 0)`–`(3, 0)`; the two routes are vertex-disjoint
grid paths. -/
def exRoutesC3 : List (List Point) :=
  [[⟨0,0,0⟩, ⟨0,1,0⟩, ⟨0,2,0⟩, ⟨1,2,0⟩, ⟨2,2,0⟩],
   [⟨2,0,0⟩, ⟨3,0,0⟩]]

/-! ## Theorems -/

/-- C10: for every Problem and label, when `Problem.has_via(label)` is
true, `Problem.via(label)` raises `NameError` (the bare `__via_dict`),
so the documented label lookup never returns the stored via. -/
theorem C10_via_raises (p : Problem) (label : String)
    (h : p.has_via label = true) :
    p.via label = Except.error PyError.nameError := by
  unfold Problem.via
  unfold Problem.has_via at h
  rw [if_pos h]

/-- C10 witness: a problem holding the via `a` answers `has_via "a"`
and the lookup raises `NameError`. -/
theorem C10_via_raises_witness :
    (Problem.mk ⟨2, 2, 2⟩ [] [⟨"a", 0, 0, 0, 1⟩]
      [("a", ⟨"a", 0, 0, 0, 1⟩)]).has_via "a" = true ∧
    (Problem.mk ⟨2, 2, 2⟩ [] [⟨"a", 0, 0, 0, 1⟩]
      [("a", ⟨"a", 0, 0, 0, 1⟩)]).via "a" = Except.error PyError.nameError :=
  ⟨by decide, C10_via_raises _ "a" (by decide)⟩

/-- C8: for every Problem whose depth is at least one, the
auto-detected format is `adc2015` iff `D = 1`, `adc2016` iff
`D > 1 ∧ via_num > 0`, and `adc2017` iff `D > 1 ∧ via_num = 0`. -/
theorem C8_guess_format (p : Problem) (h : 1 ≤ p.dim.depth) :
    (guess_format p = "adc2015" ↔ p.dim.depth = 1) ∧
    (guess_format p = "adc2016" ↔ p.dim.depth > 1 ∧ p.via_num > 0) ∧
    (guess_format p = "adc2017" ↔ p.dim.depth > 1 ∧ p.via_num = 0) := by
  unfold guess_format Problem.depth
  by_cases h1 : p.dim.depth = 1
  · rw [if_pos h1]
    refine ⟨by simp [h1], ?_, ?_⟩ <;> simp [h1]
  · rw [if_neg h1]
    have hgt : p.dim.depth > 1 := lt_of_le_of_ne h (fun e => h1 e.symm)
    by_cases h2 : p.via_num > 0
    · rw [if_pos h2]
      refine ⟨?_, ?_, ?_⟩
      · constructor
        · intro hh; exact absurd hh (by decide)
        · intro hh; exact absurd hh h1
      · simp [hgt, h2]
      · constructor
        · intro hh; exact absurd hh (by decide)
        · intro hh; omega
    · rw [if_neg h2]
      refine ⟨?_, ?_, ?_⟩
      · constructor
        · intro hh; exact absurd hh (by decide)
        · intro hh; exact absurd hh h1
      · constructor
        · intro hh; exact absurd hh (by decide)
        · intro hh; omega
      · simp [hgt]; omega

/-- C8 witness: a 2-layer via-free problem is detected as `adc2017`. -/
theorem C8_guess_format_witness :
    1 ≤ (Problem.mk ⟨2, 2, 2⟩ [] [] []).dim.depth ∧
    (guess_format (Problem.mk ⟨2, 2, 2⟩ [] [] []) = "adc2017" ↔
      (Problem.mk ⟨2, 2, 2⟩ [] [] []).dim.depth > 1 ∧
      (Problem.mk ⟨2, 2, 2⟩ [] [] []).via_num = 0) :=
  ⟨by decide, (C8_guess_format (Problem.mk ⟨2, 2, 2⟩ [] [] []) (by decide)).2.2⟩

/-- C7 counterexample: for the 2-layer via-free problem the
auto-detection rule gives `adc2017`, yet the contradicting override
`adc2016` is honored silently (no warning, no fallback). -/
theorem C7_counterexample :
    Graph.chooseFormat (Problem.mk ⟨2, 2, 2⟩ [] [] []) (some "adc2016") =
      Except.ok ("adc2016", false) ∧
    guess_format (Problem.mk ⟨2, 2, 2⟩ [] [] []) = "adc2017" ∧
    ("adc2016" : String) ≠ "adc2017" := by
  refine ⟨?_, by decide, by decide⟩
  rfl

/-- C7 amended: `Graph.set_problem` warns and falls back to the
auto-detected format exactly when the override is `adc2015` on a
multi-layer problem or `adc2017` on a problem with vias; every other
override — including one that contradicts auto-detection — is used as
given, without a warning. -/
theorem C7_override (p : Problem) (f : String)
    (hf : f = "adc2015" ∨ f = "adc2016" ∨ f = "adc2017") :
    ((p.dim.depth > 1 ∧ f = "adc2015") ∨ (p.via_num > 0 ∧ f = "adc2017") →
      Graph.chooseFormat p (some f) = Except.ok (guess_format p, true)) ∧
    (¬((p.dim.depth > 1 ∧ f = "adc2015") ∨ (p.via_num > 0 ∧ f = "adc2017")) →
      Graph.chooseFormat p (some f) = Except.ok (f, false)) := by
  constructor
  · intro hcl
    show (if f = "adc2015" ∨ f = "adc2016" ∨ f = "adc2017" then
        if (p.dim.depth > 1 ∧ f = "adc2015") ∨ (p.via_num > 0 ∧ f = "adc2017") then
          Except.ok (guess_format p, true)
        else Except.ok (f, false)
      else Except.error PyError.assertionError) = Except.ok (guess_format p, true)
    rw [if_pos hf, if_pos hcl]
  · intro hcl
    show (if f = "adc2015" ∨ f = "adc2016" ∨ f = "adc2017" then
        if (p.dim.depth > 1 ∧ f = "adc2015") ∨ (p.via_num > 0 ∧ f = "adc2017") then
          Except.ok (guess_format p, true)
        else Except.ok (f, false)
      else Except.error PyError.assertionError) = Except.ok (f, false)
    rw [if_pos hf, if_neg hcl]

/-- C7 witness: instantiated at the counterexample problem and the
override `adc2016`, which is silently honored. -/
theorem C7_override_witness :
    (("adc2016" : String) = "adc2015" ∨ ("adc2016" : String) = "adc2016" ∨
      ("adc2016" : String) = "adc2017") ∧
    (¬(((Problem.mk ⟨2, 2, 2⟩ [] [] []).dim.depth > 1 ∧ ("adc2016" : String) = "adc2015") ∨
        ((Problem.mk ⟨2, 2, 2⟩ [] [] []).via_num > 0 ∧ ("adc2016" : String) = "adc2017")) →
      Graph.chooseFormat (Problem.mk ⟨2, 2, 2⟩ [] [] []) (some "adc2016") =
        Except.ok ("adc2016", false)) :=
  ⟨by decide, (C7_override (Problem.mk ⟨2, 2, 2⟩ [] [] []) "adc2016" (by decide)).2⟩

/-- C2: the via-marking loop `range(via.z1, via.z2 - via.z1 + 1)` of
`Graph.set_problem` at the via `(label a, x 0, y 0, z1 1, z2 2)` of a
3-layer problem marks only layer 1: cell `(0,0,1)` becomes a via cell
of via 0 but cell `(0,0,2)`, inside the claimed span `[z1, z2]`, is
never marked. -/
theorem C2_via_marking :
    viaMarkedLayers ⟨"a", 0, 0, 1, 2⟩ = [1] ∧
    Graph.node_is_via (Problem.mk ⟨3, 3, 3⟩ [] [⟨"a", 0, 0, 1, 2⟩]
      [("a", ⟨"a", 0, 0, 1, 2⟩)]) 0 0 1 = true ∧
    Graph.node_via_id (Problem.mk ⟨3, 3, 3⟩ [] [⟨"a", 0, 0, 1, 2⟩]
      [("a", ⟨"a", 0, 0, 1, 2⟩)]) 0 0 1 = some 0 ∧
    Graph.node_is_via (Problem.mk ⟨3, 3, 3⟩ [] [⟨"a", 0, 0, 1, 2⟩]
      [("a", ⟨"a", 0, 0, 1, 2⟩)]) 0 0 2 = false := by
  refine ⟨rfl, rfl, rfl, ?_⟩
  rfl

/-- A string containing a non-whitespace character survives
`rstrip`. -/
theorem rstrip_ne_empty {s : String} {c : Char} (hc : c ∈ s.data)
    (hns : isPySpace c = false) : rstrip s ≠ "" := by
  intro h
  unfold rstrip at h
  have hdata : ((s.data.reverse.dropWhile isPySpace).reverse : List Char) = [] := by
    have := congrArg String.data h
    simpa using this
  rw [List.reverse_eq_nil_iff] at hdata
  rw [List.dropWhile_eq_nil_iff] at hdata
  have := hdata c (by simpa using hc)
  rw [hns] at this
  exact absurd this (by decide)

/-- C4: `read_solution` on the output of `Solution.print` always
raises `AttributeError`: the emitted SIZE header is a non-blank line,
and the first non-blank line triggers the call of the nonexistent
method `__read_SIZE`; so the print → parse round trip never yields a
Solution. -/
theorem C4_roundtrip_fails (sol : Solution) :
    ADC_Reader.read_solution (Solution.printLines sol) =
      Except.error PyError.attributeError := by
  have hS : ('S' : Char) ∈ ("SIZE " ++ toString sol.dim.width ++ "X" ++
      toString sol.dim.height ++ "X" ++ toString sol.dim.depth).data := by
    rw [String.data_append, String.data_append, String.data_append,
      String.data_append, String.data_append]
    simp
  have hne := rstrip_ne_empty hS (by decide)
  unfold Solution.printLines
  unfold ADC_Reader.read_solution
  rw [if_neg hne]

/-- C5: after `SIZE 3X3X3`, the line `VIA#a (0,0,1)-(2,2,3)` lists two
triples whose layers (1 and 3) are not contiguous and whose `(x, y)`
differ, yet `__read_VIA` records no error: the `$`-anchored
`VIA3D_pos` makes `finditer` yield only the final triple, so the
contiguity and `(x, y)` checks never see the others and the via
`(a, 2, 2)` spanning just 0-based layer 2 is silently added. -/
theorem C5_via_checks_skipped :
    ADC_Reader.read_VIA ⟨true, ⟨3, 3, 3⟩, [], [], 0⟩ "VIA#a (0,0,1)-(2,2,3)" =
      Except.ok (true, ⟨true, ⟨3, 3, 3⟩, ["a"], [⟨"a", 2, 2, 2, 2⟩], 0⟩) ∧
    viaPosMatches "VIA#a (0,0,1)-(2,2,3)" = [(2, 2, 3)] := by
  constructor
  · rfl
  · rfl

/-- C1 counterexample: a depth-1 graph whose plan A solver reports
`UNKNOWN`: `CnfEncoder.solve` does surface it as `Abort`, but
`solve_nlink` does not stop with `Abort` — it goes on to call
`plan_B11` with three arguments (declared with two) and dies with
`TypeError`, so no `('Abort', …)` ever reaches the caller. -/
theorem C1_counterexample :
    CnfEncoder.solve 0 0 Bool3.UNKNOWN = ("Abort", false) ∧
    solve_nlink 1 0 (fun _ => 0) (fun _ => Bool3.UNKNOWN) =
      Except.error PyError.typeError ∧
    (Except.error PyError.typeError : Except PyError (String × Bool)) ≠
      Except.ok ("Abort", false) ∧
    (Except.error PyError.typeError : Except PyError (String × Bool)) ≠
      Except.ok ("Abort", true) := by
  refine ⟨rfl, rfl, ?_, ?_⟩
  · intro h
    cases h
  · intro h
    cases h

/-- C1 amended: `CnfEncoder.solve` maps `UNKNOWN` to `Abort`, but
`solve_nlink` treats every non-`OK` plan status alike.  With
`depth ≠ 1` only plan C runs and its status — `NG` and `Abort` the
same way — is returned to the caller without stopping the cascade
specially; with `depth = 1` any non-`OK` plan A outcome leads to the
`plan_B11` call, which raises `TypeError` because the function takes
two parameters but is passed three arguments. -/
theorem C1_unknown_vs_unsat (vl : Nat) (pv : PlanId → Nat) (ps : PlanId → Bool3)
    (hvl : ¬(vl > 0 ∧ pv PlanId.C > vl)) :
    (∀ depth, depth ≠ 1 → ps PlanId.C = Bool3.UNKNOWN →
      solve_nlink depth vl pv ps = Except.ok ("Abort", false)) ∧
    (∀ depth, depth ≠ 1 → ps PlanId.C = Bool3.FALSE →
      solve_nlink depth vl pv ps = Except.ok ("NG", false)) ∧
    ((CnfEncoder.solve vl (pv PlanId.A) (ps PlanId.A)).1 ≠ "OK" →
      solve_nlink 1 vl pv ps = Except.error PyError.typeError) := by
  have hsolve : ∀ st, CnfEncoder.solve vl (pv PlanId.C) st =
      (match st with
       | Bool3.TRUE => ("OK", true)
       | Bool3.FALSE => ("NG", false)
       | Bool3.UNKNOWN => ("Abort", false)) := by
    intro st
    unfold CnfEncoder.solve
    rw [if_neg hvl]
  refine ⟨?_, ?_, ?_⟩
  · intro depth hd hC
    unfold solve_nlink
    rw [if_neg hd, hsolve, hC]
    rfl
  · intro depth hd hC
    unfold solve_nlink
    rw [if_neg hd, hsolve, hC]
    rfl
  · intro hA
    unfold solve_nlink
    rw [if_pos rfl, if_neg hA]

/-- C1 witness: with no variable limit, a `FALSE` (UNSAT) plan C on a
deep graph yields `NG` to the caller, an `UNKNOWN` plan C yields
`Abort`, and a depth-1 `UNKNOWN` plan A ends in `TypeError`. -/
theorem C1_unknown_vs_unsat_witness :
    ¬((0 : Nat) > 0 ∧ (fun _ : PlanId => (0 : Nat)) PlanId.C > 0) ∧
    solve_nlink 2 0 (fun _ => 0) (fun _ => Bool3.UNKNOWN) =
      Except.ok ("Abort", false) := by
  refine ⟨by decide, ?_⟩
  exact (C1_unknown_vs_unsat 0 (fun _ => 0) (fun _ => Bool3.UNKNOWN)
    (by decide)).1 2 (by decide) rfl

/-- C6: one iteration of the adc2016 decoder walk at a via cell with no
unvisited selected edge, for a net whose terminals lie on different
layers: the decoder appends the vertical run of points at the via's
`(x, y)` going from `start.z` toward `end.z` and resumes the walk at
the node `(x, y, end.z)` of the column. -/
theorem C6_via_synthesis (g : VGraph) (selected : Nat → Bool)
    (startIdx endIdx fuel : Nat) (prev : Option Nat) (node : Nat)
    (route : List Point)
    (hend : node ≠ endIdx)
    (hnext : findNext g selected node prev = none)
    (hvia : (g.nodes.getD node VNode.dflt).is_via = true)
    (hz : (g.nodes.getD startIdx VNode.dflt).point.z ≠
      (g.nodes.getD endIdx VNode.dflt).point.z) :
    find_routeAux g selected startIdx endIdx (fuel + 1) prev node route =
      find_routeAux g selected startIdx endIdx fuel (some node)
        (g.nodeAt (g.nodes.getD node VNode.dflt).point.x
          (g.nodes.getD node VNode.dflt).point.y
          (g.nodes.getD endIdx VNode.dflt).point.z)
        ((route ++ [(g.nodes.getD node VNode.dflt).point]) ++
          ((if (g.nodes.getD startIdx VNode.dflt).point.z <
              (g.nodes.getD endIdx VNode.dflt).point.z
            then pyRange (g.nodes.getD startIdx VNode.dflt).point.z
              (g.nodes.getD endIdx VNode.dflt).point.z
            else pyRangeDown (g.nodes.getD startIdx VNode.dflt).point.z
              (g.nodes.getD endIdx VNode.dflt).point.z).map
            fun z => (⟨(g.nodes.getD node VNode.dflt).point.x,
              (g.nodes.getD node VNode.dflt).point.y, z⟩ : Point))) := by
  conv_lhs => rw [find_routeAux]
  rw [if_neg hend, hnext]
  have hvia2 : ¬((g.nodes.getD node VNode.dflt).is_via = false) := by
    rw [hvia]; decide
  rw [if_neg hvia2, if_neg hz]

/-- C6 witness: a two-node graph whose node 0 is an isolated via cell
at `(0, 0, 0)` and whose node 1 is the end terminal at `(0, 0, 1)`;
the step appends the run `[(0,0,0)]` and resumes at node 1. -/
theorem C6_via_synthesis_witness :
    (0 : Nat) ≠ 1 ∧
    findNext ⟨[⟨⟨0, 0, 0⟩, true, []⟩, ⟨⟨0, 0, 1⟩, false, []⟩], [], fun _ _ _ => 1⟩
      (fun _ => false) 0 none = none ∧
    find_routeAux ⟨[⟨⟨0, 0, 0⟩, true, []⟩, ⟨⟨0, 0, 1⟩, false, []⟩], [],
        fun _ _ _ => 1⟩ (fun _ => false) 0 1 2 none 0 [] =
      find_routeAux ⟨[⟨⟨0, 0, 0⟩, true, []⟩, ⟨⟨0, 0, 1⟩, false, []⟩], [],
        fun _ _ _ => 1⟩ (fun _ => false) 0 1 1 (some 0) 1
        (([] ++ [(⟨0, 0, 0⟩ : Point)]) ++
          ((if (0 : Nat) < 1 then pyRange 0 1 else pyRangeDown 0 1).map
            fun z => (⟨0, 0, z⟩ : Point))) := by
  refine ⟨by decide, rfl, ?_⟩
  exact C6_via_synthesis _ _ 0 1 1 none 0 [] (by decide) rfl rfl (by decide)

/-- C3 counterexample: on the 4×3 instance `exRoutesC3` (two
vertex-disjoint valid routes, total interior length 3, total bends 1)
a single `reroute` pass keeps the total length at 3 but raises the
total bend count from 1 to 3 — the totals are not both
non-increasing. -/
theorem C3_counterexample :
    Router.rerouteTrace ⟨4, 3, 1⟩ 20 exRoutesC3 =
      Except.ok [(3, 1), (3, 3)] ∧ ¬((3 : Nat) ≤ 1) := by
  constructor
  · rfl
  · decide

/-- The totals returned by a successful `rerouteLoop` extend the
entry totals to a `StrictThenStable` trace: the loop body repeats
exactly while one of the totals strictly decreases. -/
theorem rerouteLoop_strictThenStable (dim : Dimension) (fuel : Nat) :
    ∀ (iters : Nat) (ris : List RouteInfo) (t0 : Nat × Nat)
      (out : List RouteInfo × List (Nat × Nat)),
      Router.rerouteLoop dim fuel iters ris t0 = Except.ok out →
      StrictThenStable t0 out.2 := by
  intro iters
  induction iters with
  | zero => intro ris t0 out h; exact absurd h (by rw [Router.rerouteLoop]; intro h; cases h)
  | succ n ih =>
    intro ris t0 out h
    rw [Router.rerouteLoop] at h
    cases hp : Router.reroutePass dim fuel ris with
    | error e => rw [hp] at h; cases h
    | ok ris2 =>
      rw [hp] at h
      dsimp only at h
      by_cases hguard : t0.1 ≤ (Router.count ris2).1 ∧ t0.2 ≤ (Router.count ris2).2
      · rw [if_pos hguard] at h
        cases h
        exact StrictThenStable.last t0 (Router.count ris2) hguard.1 hguard.2
      · rw [if_neg hguard] at h
        cases hl : Router.rerouteLoop dim fuel n ris2 (Router.count ris2) with
        | error e => rw [hl] at h; cases h
        | ok out2 =>
          rw [hl] at h
          cases out2 with
          | mk risf ts =>
            cases h
            exact StrictThenStable.step t0 (Router.count ris2) ts
              (by omega) (ih ris2 (Router.count ris2) (risf, ts) hl)

/-- C3 amended: the totals are not individually monotone (see the
counterexample: a pass may raise the bend count; and the loop guard
compares only against the previous pass).  What holds is: along any
completed run of `Router.reroute`, every pass except the last strictly
decreases the total length or the total bend count, and the loop stops
at the first pass that decreases neither. -/
theorem C3_trace_shape (dim : Dimension) (fuel : Nat)
    (routes : List (List Point)) (ts : List (Nat × Nat))
    (h : Router.rerouteTrace dim fuel routes = Except.ok ts) :
    ∃ t0 rest, ts = t0 :: rest ∧ StrictThenStable t0 rest := by
  unfold Router.rerouteTrace at h
  cases hr : Router.reroute dim fuel routes with
  | error e => rw [hr] at h; cases h
  | ok out =>
    rw [hr] at h
    cases out with
    | mk risf tr =>
      simp only [Except.map] at h
      cases h
      unfold Router.reroute at hr
      cases hm : routes.mapM RouteInfo.ofRoute with
      | error e => rw [hm] at hr; cases hr
      | ok ris =>
        rw [hm] at hr
        dsimp only at hr
        cases hl : Router.rerouteLoop dim fuel fuel ris (Router.count ris) with
        | error e => rw [hl] at hr; cases hr
        | ok out2 =>
          cases out2 with
          | mk risf2 ts2 =>
            rw [hl] at hr
            dsimp only at hr
            cases hr
            exact ⟨Router.count ris, _, rfl,
              rerouteLoop_strictThenStable dim fuel fuel ris (Router.count ris)
                _ hl⟩

/-- C3 witness: the trace of the counterexample instance,
`[(3,1), (3,3)]`, has the guaranteed shape: its single pass is the
last one (neither total decreased below the entry totals 3 and 1 is
false only for bends — the pass decreases neither total, so the loop
stops there). -/
theorem C3_trace_shape_witness :
    ∃ t0 rest, ([((3 : Nat), (1 : Nat)), (3, 3)] = t0 :: rest ∧ StrictThenStable t0 rest) :=
  C3_trace_shape ⟨4, 3, 1⟩ 20 exRoutesC3 [(3, 1), (3, 3)] (by rfl)

/-- Positional decomposition: `a * W + x1 = b * W + x2` with
`x1, x2 < W` forces both digits to coincide. -/
theorem mul_add_digit_inj (W : Nat) {a b x1 x2 : Nat} (h1 : x1 < W) (h2 : x2 < W)
    (h : a * W + x1 = b * W + x2) : a = b ∧ x1 = x2 := by
  have hW : 0 < W := Nat.lt_of_le_of_lt (Nat.zero_le x1) h1
  have hx : x1 = x2 := by
    have e1 : (a * W + x1) % W = x1 := by
      rw [Nat.mul_comm, Nat.mul_add_mod, Nat.mod_eq_of_lt h1]
    have e2 : (b * W + x2) % W = x2 := by
      rw [Nat.mul_comm, Nat.mul_add_mod, Nat.mod_eq_of_lt h2]
    rw [← e1, ← e2, h]
  subst hx
  have hab : a * W = b * W := by omega
  exact ⟨Nat.eq_of_mul_eq_mul_right hW hab, rfl⟩

/-- `Dimension.xyz_to_index` is injective for in-range `x` and `y`. -/
theorem xyz_to_index_inj (dim : Dimension) {x y z x2 y2 z2 : Nat}
    (hx : x < dim.width) (hy : y < dim.height)
    (hx2 : x2 < dim.width) (hy2 : y2 < dim.height)
    (h : dim.xyz_to_index x y z = dim.xyz_to_index x2 y2 z2) :
    x = x2 ∧ y = y2 ∧ z = z2 := by
  unfold Dimension.xyz_to_index at h
  obtain ⟨h1, h2⟩ := mul_add_digit_inj dim.width hx hx2 h
  obtain ⟨h3, h4⟩ := mul_add_digit_inj dim.height hy hy2 h1
  exact ⟨h2, h4, h3⟩

/-- `flatMap` over a duplicate-free list is duplicate-free when every
piece is and distinct elements give disjoint pieces. -/
theorem nodup_flatMap_of {α β : Type} {l : List α} {f : α → List β}
    (hl : l.Nodup) (hf : ∀ a ∈ l, (f a).Nodup)
    (hdisj : ∀ a ∈ l, ∀ b ∈ l, a ≠ b → ∀ c, c ∈ f a → c ∈ f b → False) :
    (l.flatMap f).Nodup := by
  rw [List.nodup_flatMap]
  refine ⟨hf, ?_⟩
  refine List.Pairwise.imp_of_mem ?_ hl
  intro a b ha hb hne c hca hcb
  exact hdisj a ha b hb hne c hca hcb

/-- `map` over `range` is duplicate-free for a function injective below
the bound. -/
theorem nodup_map_range {β : Type} (n : Nat) (f : Nat → β)
    (hinj : ∀ i, i < n → ∀ j, j < n → f i = f j → i = j) :
    ((List.range n).map f).Nodup := by
  refine List.Nodup.map_on ?_ (List.nodup_range n)
  intro i hi j hj he
  exact hinj i (List.mem_range.mp hi) j (List.mem_range.mp hj) he

/-- Two-level grid enumeration without duplicates. -/
theorem nodup_grid2 {β : Type} (A B : Nat) (g : Nat → Nat → β)
    (hinj : ∀ x, x < A → ∀ y, y < B → ∀ x2, x2 < A → ∀ y2, y2 < B →
      g x y = g x2 y2 → x = x2 ∧ y = y2) :
    ((List.range A).flatMap fun x => (List.range B).map fun y => g x y).Nodup := by
  refine nodup_flatMap_of (List.nodup_range A) ?_ ?_
  · intro x hx
    refine nodup_map_range B (fun y => g x y) ?_
    intro i hi j hj he
    exact ((hinj x (List.mem_range.mp hx) i hi x (List.mem_range.mp hx) j hj) he).2
  · intro x hx x2 hx2 hne c hc1 hc2
    simp only [List.mem_map, List.mem_range] at hc1 hc2
    obtain ⟨y, hy, rfl⟩ := hc1
    obtain ⟨y2, hy2, he⟩ := hc2
    exact hne ((hinj x2 (List.mem_range.mp hx2) y2 hy2 x (List.mem_range.mp hx) y hy
      he).1).symm

/-- Membership in a two-level grid enumeration. -/
theorem mem_grid2 {β : Type} {A B : Nat} {g : Nat → Nat → β} {c : β}
    (hc : c ∈ (List.range A).flatMap fun x => (List.range B).map fun y => g x y) :
    ∃ x, x < A ∧ ∃ y, y < B ∧ c = g x y := by
  simp only [List.mem_flatMap, List.mem_map, List.mem_range] at hc
  obtain ⟨x, hx, y, hy, rfl⟩ := hc
  exact ⟨x, hx, y, hy, rfl⟩

/-- Three-level grid enumeration without duplicates. -/
theorem nodup_grid3 {β : Type} (A B C : Nat) (g : Nat → Nat → Nat → β)
    (hinj : ∀ x, x < A → ∀ y, y < B → ∀ z, z < C →
      ∀ x2, x2 < A → ∀ y2, y2 < B → ∀ z2, z2 < C →
      g x y z = g x2 y2 z2 → x = x2 ∧ y = y2 ∧ z = z2) :
    ((List.range A).flatMap fun x => (List.range B).flatMap fun y =>
      (List.range C).map fun z => g x y z).Nodup := by
  refine nodup_flatMap_of (List.nodup_range A) ?_ ?_
  · intro x hx
    refine nodup_grid2 B C (fun y z => g x y z) ?_
    intro y hy z hz y2 hy2 z2 hz2 he
    have := hinj x (List.mem_range.mp hx) y hy z hz x (List.mem_range.mp hx) y2 hy2 z2 hz2 he
    exact ⟨this.2.1, this.2.2⟩
  · intro x hx x2 hx2 hne c hc1 hc2
    obtain ⟨y, hy, z, hz, rfl⟩ := mem_grid2 hc1
    obtain ⟨y2, hy2, z2, hz2, he⟩ := mem_grid2 hc2
    exact hne (hinj x (List.mem_range.mp hx) y hy z hz x2 (List.mem_range.mp hx2)
      y2 hy2 z2 hz2 he).1

/-- Membership in a three-level grid enumeration. -/
theorem mem_grid3 {β : Type} {A B C : Nat} {g : Nat → Nat → Nat → β} {c : β}
    (hc : c ∈ (List.range A).flatMap fun x => (List.range B).flatMap fun y =>
      (List.range C).map fun z => g x y z) :
    ∃ x, x < A ∧ ∃ y, y < B ∧ ∃ z, z < C ∧ c = g x y z := by
  simp only [List.mem_flatMap, List.mem_map, List.mem_range] at hc
  obtain ⟨x, hx, y, hy, z, hz, rfl⟩ := hc
  exact ⟨x, hx, y, hy, z, hz, rfl⟩

/-- The `(node1, dir_base)` keys of the `__new_edge` calls are pairwise
distinct: every node receives at most one `add_edge` per odd slot. -/
theorem nodup_key1 (dim : Dimension) (format : String) :
    ((Graph.edgeSteps dim format).map fun s => (s.n1, s.dirBase)).Nodup := by
  have hWsub : dim.width - 1 ≤ dim.width := Nat.sub_le _ _
  have hHsub : dim.height - 1 ≤ dim.height := Nat.sub_le _ _
  unfold Graph.edgeSteps
  rw [List.map_append]
  refine List.Nodup.append ?_ ?_ ?_
  · rw [List.map_flatMap]
    refine nodup_flatMap_of (List.nodup_range _) ?_ ?_
    · intro z hz
      rw [List.map_append]
      refine List.Nodup.append ?_ ?_ ?_
      · rw [List.map_flatMap]
        simp only [List.map_map, Function.comp_def]
        refine nodup_grid2 (dim.width - 1) dim.height
          (fun x y => ((dim.xyz_to_index x y z, 0) : Nat × Nat)) ?_
        intro x hx y hy x2 hx2 y2 hy2 he
        rw [Prod.mk.injEq] at he
        have h3 := xyz_to_index_inj dim (Nat.lt_of_lt_of_le hx hWsub) hy
          (Nat.lt_of_lt_of_le hx2 hWsub) hy2 he.1
        exact ⟨h3.1, h3.2.1⟩
      · rw [List.map_flatMap]
        simp only [List.map_map, Function.comp_def]
        refine nodup_grid2 dim.width (dim.height - 1)
          (fun x y => ((dim.xyz_to_index x y z, 1) : Nat × Nat)) ?_
        intro x hx y hy x2 hx2 y2 hy2 he
        rw [Prod.mk.injEq] at he
        have h3 := xyz_to_index_inj dim hx (Nat.lt_of_lt_of_le hy hHsub)
          hx2 (Nat.lt_of_lt_of_le hy2 hHsub) he.1
        exact ⟨h3.1, h3.2.1⟩
      · intro c hc1 hc2
        rw [List.map_flatMap] at hc1 hc2
        simp only [List.map_map, Function.comp_def] at hc1 hc2
        obtain ⟨x, hx, y, hy, he1⟩ := mem_grid2 hc1
        obtain ⟨x2, hx2, y2, hy2, he2⟩ := mem_grid2 hc2
        rw [he1] at he2
        rw [Prod.mk.injEq] at he2
        exact absurd he2.2 (by decide)
    · intro z hz z2 hz2 hne c hc1 hc2
      simp only [List.map_append, List.mem_append, List.map_flatMap, List.map_map,
        Function.comp_def] at hc1 hc2
      have ex1 : ∃ x y, x < dim.width ∧ y < dim.height ∧
          c.1 = dim.xyz_to_index x y z := by
        rcases hc1 with h | h
        · obtain ⟨x, hx, y, hy, he⟩ := mem_grid2 h
          exact ⟨x, y, Nat.lt_of_lt_of_le hx hWsub, hy, by rw [he]⟩
        · obtain ⟨x, hx, y, hy, he⟩ := mem_grid2 h
          exact ⟨x, y, hx, Nat.lt_of_lt_of_le hy hHsub, by rw [he]⟩
      have ex2 : ∃ x y, x < dim.width ∧ y < dim.height ∧
          c.1 = dim.xyz_to_index x y z2 := by
        rcases hc2 with h | h
        · obtain ⟨x, hx, y, hy, he⟩ := mem_grid2 h
          exact ⟨x, y, Nat.lt_of_lt_of_le hx hWsub, hy, by rw [he]⟩
        · obtain ⟨x, hx, y, hy, he⟩ := mem_grid2 h
          exact ⟨x, y, hx, Nat.lt_of_lt_of_le hy hHsub, by rw [he]⟩
      obtain ⟨x, y, hx, hy, e1⟩ := ex1
      obtain ⟨x2, y2, hx2, hy2, e2⟩ := ex2
      exact hne (xyz_to_index_inj dim hx hy hx2 hy2 (e1.symm.trans e2)).2.2
  · by_cases hfmt : format = "adc2017"
    · rw [if_pos hfmt]
      rw [List.map_flatMap]
      simp only [List.map_flatMap, List.map_map, Function.comp_def]
      refine nodup_grid3 dim.width dim.height (dim.depth - 1)
        (fun x y z => ((dim.xyz_to_index x y z, 2) : Nat × Nat)) ?_
      intro x hx y hy z hz x2 hx2 y2 hy2 z2 hz2 he
      rw [Prod.mk.injEq] at he
      exact xyz_to_index_inj dim hx hy hx2 hy2 he.1
    · rw [if_neg hfmt]
      exact List.nodup_nil
  · intro c hc1 hc2
    by_cases hfmt : format = "adc2017"
    · rw [if_pos hfmt] at hc2
      rw [List.map_flatMap] at hc2
      simp only [List.map_flatMap, List.map_map, Function.comp_def] at hc2
      obtain ⟨x2, hx2, y2, hy2, z2, hz2, he2⟩ := mem_grid3 hc2
      rw [List.map_flatMap, List.mem_flatMap] at hc1
      obtain ⟨z, hzm, h⟩ := hc1
      rw [List.map_append, List.mem_append] at h
      simp only [List.map_flatMap, List.map_map, Function.comp_def] at h
      have h2 : c.2 = 0 ∨ c.2 = 1 := by
        rcases h with h | h
        · obtain ⟨x, hx, y, hy, he⟩ := mem_grid2 h
          left; rw [he]
        · obtain ⟨x, hx, y, hy, he⟩ := mem_grid2 h
          right; rw [he]
      rw [he2] at h2
      simp at h2
    · rw [if_neg hfmt] at hc2
      simp at hc2

/-- The `(node2, dir_base)` keys of the `__new_edge` calls are pairwise
distinct: every node receives at most one `add_edge` per even slot. -/
theorem nodup_key2 (dim : Dimension) (format : String) :
    ((Graph.edgeSteps dim format).map fun s => (s.n2, s.dirBase)).Nodup := by
  unfold Graph.edgeSteps
  rw [List.map_append]
  refine List.Nodup.append ?_ ?_ ?_
  · rw [List.map_flatMap]
    refine nodup_flatMap_of (List.nodup_range _) ?_ ?_
    · intro z hz
      rw [List.map_append]
      refine List.Nodup.append ?_ ?_ ?_
      · rw [List.map_flatMap]
        simp only [List.map_map, Function.comp_def]
        refine nodup_grid2 (dim.width - 1) dim.height
          (fun x y => ((dim.xyz_to_index (x + 1) y z, 0) : Nat × Nat)) ?_
        intro x hx y hy x2 hx2 y2 hy2 he
        rw [Prod.mk.injEq] at he
        have hxw : x + 1 < dim.width := by omega
        have hx2w : x2 + 1 < dim.width := by omega
        have h3 := xyz_to_index_inj dim hxw hy hx2w hy2 he.1
        exact ⟨by omega, h3.2.1⟩
      · rw [List.map_flatMap]
        simp only [List.map_map, Function.comp_def]
        refine nodup_grid2 dim.width (dim.height - 1)
          (fun x y => ((dim.xyz_to_index x (y + 1) z, 1) : Nat × Nat)) ?_
        intro x hx y hy x2 hx2 y2 hy2 he
        rw [Prod.mk.injEq] at he
        have hyh : y + 1 < dim.height := by omega
        have hy2h : y2 + 1 < dim.height := by omega
        have h3 := xyz_to_index_inj dim hx hyh hx2 hy2h he.1
        exact ⟨h3.1, by omega⟩
      · intro c hc1 hc2
        rw [List.map_flatMap] at hc1 hc2
        simp only [List.map_map, Function.comp_def] at hc1 hc2
        obtain ⟨x, hx, y, hy, he1⟩ := mem_grid2 hc1
        obtain ⟨x2, hx2, y2, hy2, he2⟩ := mem_grid2 hc2
        rw [he1] at he2
        rw [Prod.mk.injEq] at he2
        exact absurd he2.2 (by decide)
    · intro z hz z2 hz2 hne c hc1 hc2
      simp only [List.map_append, List.mem_append, List.map_flatMap, List.map_map,
        Function.comp_def] at hc1 hc2
      have ex1 : ∃ x y, x < dim.width ∧ y < dim.height ∧
          c.1 = dim.xyz_to_index x y z := by
        rcases hc1 with h | h
        · obtain ⟨x, hx, y, hy, he⟩ := mem_grid2 h
          exact ⟨x + 1, y, by omega, hy, by rw [he]⟩
        · obtain ⟨x, hx, y, hy, he⟩ := mem_grid2 h
          exact ⟨x, y + 1, hx, by omega, by rw [he]⟩
      have ex2 : ∃ x y, x < dim.width ∧ y < dim.height ∧
          c.1 = dim.xyz_to_index x y z2 := by
        rcases hc2 with h | h
        · obtain ⟨x, hx, y, hy, he⟩ := mem_grid2 h
          exact ⟨x + 1, y, by omega, hy, by rw [he]⟩
        · obtain ⟨x, hx, y, hy, he⟩ := mem_grid2 h
          exact ⟨x, y + 1, hx, by omega, by rw [he]⟩
      obtain ⟨x, y, hx, hy, e1⟩ := ex1
      obtain ⟨x2, y2, hx2, hy2, e2⟩ := ex2
      exact hne (xyz_to_index_inj dim hx hy hx2 hy2 (e1.symm.trans e2)).2.2
  · by_cases hfmt : format = "adc2017"
    · rw [if_pos hfmt]
      rw [List.map_flatMap]
      simp only [List.map_flatMap, List.map_map, Function.comp_def]
      refine nodup_grid3 dim.width dim.height (dim.depth - 1)
        (fun x y z => ((dim.xyz_to_index x y (z + 1), 2) : Nat × Nat)) ?_
      intro x hx y hy z hz x2 hx2 y2 hy2 z2 hz2 he
      rw [Prod.mk.injEq] at he
      have h3 := xyz_to_index_inj dim hx hy hx2 hy2 he.1
      exact ⟨h3.1, h3.2.1, by omega⟩
    · rw [if_neg hfmt]
      exact List.nodup_nil
  · intro c hc1 hc2
    by_cases hfmt : format = "adc2017"
    · rw [if_pos hfmt] at hc2
      rw [List.map_flatMap] at hc2
      simp only [List.map_flatMap, List.map_map, Function.comp_def] at hc2
      obtain ⟨x2, hx2, y2, hy2, z2, hz2, he2⟩ := mem_grid3 hc2
      rw [List.map_flatMap, List.mem_flatMap] at hc1
      obtain ⟨z, hzm, h⟩ := hc1
      rw [List.map_append, List.mem_append] at h
      simp only [List.map_flatMap, List.map_map, Function.comp_def] at h
      have h2 : c.2 = 0 ∨ c.2 = 1 := by
        rcases h with h | h
        · obtain ⟨x, hx, y, hy, he⟩ := mem_grid2 h
          left; rw [he]
        · obtain ⟨x, hx, y, hy, he⟩ := mem_grid2 h
          right; rw [he]
      rw [he2] at h2
      simp at h2
    · rw [if_neg hfmt] at hc2
      simp at hc2

/-- A step sequence containing no write to `(n, d)` leaves the slot
unchanged. -/
theorem addEdges_no_write {n d : Nat} :
    ∀ (steps : List EdgeStep) (m : SlotMap) (i : Nat),
      (∀ s ∈ steps, ¬ writesTo s n d) → addEdges m i steps n d = m n d := by
  intro steps
  induction steps with
  | nil => intro m i _; rfl
  | cons s rest ih =>
    intro m i hnw
    rw [addEdges]
    rw [ih (writeSlots m s i) (i + 1) (fun s2 hs2 => hnw s2 (List.mem_cons_of_mem s hs2))]
    unfold writeSlots
    have hw := hnw s (List.mem_cons_self s rest)
    unfold writesTo at hw
    rw [if_neg (fun hc => hw (Or.inl hc)), if_neg (fun hc => hw (Or.inr hc))]

/-- A slot that step `j` writes and no later step writes ends holding
edge id `i + j`. -/
theorem addEdges_last_write {n d : Nat} :
    ∀ (steps : List EdgeStep) (m : SlotMap) (i j : Nat) (hj : j < steps.length),
      writesTo (steps.get ⟨j, hj⟩) n d →
      (∀ k, ∀ hk : k < steps.length, j < k → ¬ writesTo (steps.get ⟨k, hk⟩) n d) →
      addEdges m i steps n d = some (i + j) := by
  intro steps
  induction steps with
  | nil => intro m i j hj _ _; exact absurd hj (by simp)
  | cons s rest ih =>
    intro m i j hj hw hlater
    rw [addEdges]
    match j with
    | 0 =>
      have hnr : ∀ s2 ∈ rest, ¬ writesTo s2 n d := by
        intro s2 hs2
        obtain ⟨k, hke⟩ := List.mem_iff_get.mp hs2
        have h5 := hlater (k.val + 1) (by simp) (Nat.succ_pos k.val)
        rw [← hke]
        simpa using h5
      rw [addEdges_no_write rest (writeSlots m s i) (i + 1) hnr]
      have hw0 : writesTo s n d := hw
      unfold writesTo at hw0
      unfold writeSlots
      rcases hw0 with h | h
      · rw [if_pos h, Nat.add_zero]
      · by_cases h1 : n = s.n2 ∧ d = 2 * s.dirBase
        · rw [if_pos h1, Nat.add_zero]
        · rw [if_neg h1, if_pos h, Nat.add_zero]
    | j2 + 1 =>
      have hj2 : j2 < rest.length := by simpa using Nat.lt_of_succ_lt_succ hj
      have heq : addEdges (writeSlots m s i) (i + 1) rest n d = some (i + 1 + j2) := by
        refine ih (writeSlots m s i) (i + 1) j2 hj2 hw ?_
        intro k hk hgt
        have := hlater (k + 1) (by simpa using Nat.succ_lt_succ hk) (Nat.succ_lt_succ hgt)
        simpa using this
      rw [heq]
      congr 1
      omega

/-- Every edge id held in a slot after the construction identifies a
step that wrote that slot. -/
theorem addEdges_cases {n d : Nat} :
    ∀ (steps : List EdgeStep) (m : SlotMap) (i : Nat),
      addEdges m i steps n d = m n d ∨
      ∃ j, ∃ hj : j < steps.length, addEdges m i steps n d = some (i + j) ∧
        writesTo (steps.get ⟨j, hj⟩) n d := by
  intro steps
  induction steps with
  | nil => intro m i; exact Or.inl rfl
  | cons s rest ih =>
    intro m i
    rw [addEdges]
    rcases ih (writeSlots m s i) (i + 1) with h | ⟨j, hj, he, hw⟩
    · rw [h]
      unfold writeSlots
      by_cases h1 : n = s.n2 ∧ d = 2 * s.dirBase
      · rw [if_pos h1]
        exact Or.inr ⟨0, by simp, by simp, Or.inl h1⟩
      · rw [if_neg h1]
        by_cases h2 : n = s.n1 ∧ d = 2 * s.dirBase + 1
        · rw [if_pos h2]
          exact Or.inr ⟨0, by simp, by simp, Or.inr h2⟩
        · rw [if_neg h2]
          exact Or.inl rfl
    · refine Or.inr ⟨j + 1, by simpa using Nat.succ_lt_succ hj, ?_, by simpa using hw⟩
      rw [he]
      congr 1
      omega

/-- Positions with equal keys coincide in a list with duplicate-free
key image. -/
theorem key_pos_eq {l : List EdgeStep} {f : EdgeStep → Nat × Nat}
    (h : (l.map f).Nodup) {j k : Nat} (hj : j < l.length) (hk : k < l.length)
    (he : f (l.get ⟨j, hj⟩) = f (l.get ⟨k, hk⟩)) : j = k := by
  have hj2 : j < (l.map f).length := by simpa using hj
  have hk2 : k < (l.map f).length := by simpa using hk
  have e1 : (l.map f).get ⟨j, hj2⟩ = f (l.get ⟨j, hj⟩) := by simp
  have e2 : (l.map f).get ⟨k, hk2⟩ = f (l.get ⟨k, hk⟩) := by simp
  have h4 := (List.Nodup.get_inj_iff h).mp (e1.trans (he.trans e2.symm))
  exact congrArg Fin.val h4

/-- C9: after graph construction from any problem, the edge created by
the `j`-th `__new_edge(n1, n2, dir_base)` call is held in exactly the
slot `dir_base*2 + 1` of `n1` and the slot `dir_base*2` of `n2` — the
opposite pair of directional slots along its axis — and in no other
slot of any node; since slots hold at most one edge id, every
directional slot of every node holds at most one edge. -/
theorem C9_edge_slot_consistency (dim : Dimension) (format : String)
    (j : Nat) (hj : j < (Graph.edgeSteps dim format).length) :
    Graph.slots dim format ((Graph.edgeSteps dim format).get ⟨j, hj⟩).n1
        (2 * ((Graph.edgeSteps dim format).get ⟨j, hj⟩).dirBase + 1) = some j ∧
    Graph.slots dim format ((Graph.edgeSteps dim format).get ⟨j, hj⟩).n2
        (2 * ((Graph.edgeSteps dim format).get ⟨j, hj⟩).dirBase) = some j ∧
    ∀ n d, Graph.slots dim format n d = some j →
      writesTo ((Graph.edgeSteps dim format).get ⟨j, hj⟩) n d := by
  refine ⟨?_, ?_, ?_⟩
  · unfold Graph.slots
    have hres := addEdges_last_write
      (n := ((Graph.edgeSteps dim format).get ⟨j, hj⟩).n1)
      (d := 2 * ((Graph.edgeSteps dim format).get ⟨j, hj⟩).dirBase + 1)
      (Graph.edgeSteps dim format) (fun _ _ => none) 0 j hj
      (Or.inr ⟨rfl, rfl⟩) ?_
    · rw [Nat.zero_add] at hres
      exact hres
    · intro k hk hgt hwk
      rcases hwk with ⟨h1, h2⟩ | ⟨h1, h2⟩
      · omega
      · have hb : ((Graph.edgeSteps dim format).get ⟨k, hk⟩).dirBase =
            ((Graph.edgeSteps dim format).get ⟨j, hj⟩).dirBase := by omega
        have hkeys : (fun t => (t.n1, t.dirBase))
              ((Graph.edgeSteps dim format).get ⟨k, hk⟩) =
            (fun t => (t.n1, t.dirBase))
              ((Graph.edgeSteps dim format).get ⟨j, hj⟩) := by
          rw [Prod.mk.injEq]
          exact ⟨h1.symm, hb⟩
        have hkj := key_pos_eq (nodup_key1 dim format) hk hj hkeys
        omega
  · unfold Graph.slots
    have hres := addEdges_last_write
      (n := ((Graph.edgeSteps dim format).get ⟨j, hj⟩).n2)
      (d := 2 * ((Graph.edgeSteps dim format).get ⟨j, hj⟩).dirBase)
      (Graph.edgeSteps dim format) (fun _ _ => none) 0 j hj
      (Or.inl ⟨rfl, rfl⟩) ?_
    · rw [Nat.zero_add] at hres
      exact hres
    · intro k hk hgt hwk
      rcases hwk with ⟨h1, h2⟩ | ⟨h1, h2⟩
      · have hb : ((Graph.edgeSteps dim format).get ⟨k, hk⟩).dirBase =
            ((Graph.edgeSteps dim format).get ⟨j, hj⟩).dirBase := by omega
        have hkeys : (fun t => (t.n2, t.dirBase))
              ((Graph.edgeSteps dim format).get ⟨k, hk⟩) =
            (fun t => (t.n2, t.dirBase))
              ((Graph.edgeSteps dim format).get ⟨j, hj⟩) := by
          rw [Prod.mk.injEq]
          exact ⟨h1.symm, hb⟩
        have hkj := key_pos_eq (nodup_key2 dim format) hk hj hkeys
        omega
      · omega
  · intro n d hnd
    unfold Graph.slots at hnd
    rcases addEdges_cases (n := n) (d := d) (Graph.edgeSteps dim format)
        (fun _ _ => none) 0 with h | ⟨j2, hj2, he, hw⟩
    · rw [h] at hnd
      cases hnd
    · rw [he] at hnd
      have hjj : j2 = j := by
        have := Option.some.inj hnd
        omega
      subst hjj
      exact hw

/-- C9 witness: in the 2×2 single-layer graph, edge 0 is the x-edge
`(0,0,0)`–`(1,0,0)`: it sits in slot 1 of node 0 and slot 0 of node 1
and in no other slot. -/
theorem C9_edge_slot_consistency_witness :
    (0 : Nat) < (Graph.edgeSteps ⟨2, 2, 1⟩ "adc2015").length ∧
    (Graph.slots ⟨2, 2, 1⟩ "adc2015"
        ((Graph.edgeSteps ⟨2, 2, 1⟩ "adc2015").get ⟨0, by decide⟩).n1
        (2 * ((Graph.edgeSteps ⟨2, 2, 1⟩ "adc2015").get ⟨0, by decide⟩).dirBase + 1) =
        some 0 ∧
      Graph.slots ⟨2, 2, 1⟩ "adc2015"
        ((Graph.edgeSteps ⟨2, 2, 1⟩ "adc2015").get ⟨0, by decide⟩).n2
        (2 * ((Graph.edgeSteps ⟨2, 2, 1⟩ "adc2015").get ⟨0, by decide⟩).dirBase) =
        some 0 ∧
      ∀ n d, Graph.slots ⟨2, 2, 1⟩ "adc2015" n d = some 0 →
        writesTo ((Graph.edgeSteps ⟨2, 2, 1⟩ "adc2015").get ⟨0, by decide⟩) n d) :=
  ⟨by decide, C9_edge_slot_consistency ⟨2, 2, 1⟩ "adc2015" 0 (by decide)⟩
